import Mathlib

/-!
Verification of the pending-operation tracking and resubmission subsystem
(`PendingStateManager` and its helpers).  The TypeScript source is embedded
shallowly: the mutable `PendingStateManager` instance becomes an explicit
state record (`PSMState`), each method becomes a pure function threading that
state, thrown exceptions become an explicit `PsmError` result, and the
asynchronous external collaborators (`IRuntimeStateHandler`) become oracle
functions supplied as arguments.

Op payloads travel through `JSON.stringify` / `JSON.parse` in the source, so
a small JSON value model with a stringifier and a (fuel-based) parser is
defined first.
-/

/-- JSON value model for op contents: the source compares canonically
serialized op contents as strings (`JSON.stringify`) and re-parses stashed
contents (`JSON.parse`). -/
inductive Json where
  | null : Json
  | bool (b : Bool) : Json
  | num (n : Int) : Json
  | str (s : String) : Json
  | arr (elems : List Json) : Json
  | obj (fields : List (String × Json)) : Json

/-- Escape a character the way `JSON.stringify` does for the characters our
model produces (quote and backslash; newline and tab for completeness). -/
def escapeChar (c : Char) : String :=
  if c = '"' then "\\\""
  else if c = '\\' then "\\\\"
  else if c = '\n' then "\\n"
  else if c = '\t' then "\\t"
  else String.singleton c

/-- Escape a whole string for JSON output. -/
def escapeString (s : String) : String :=
  String.join (s.toList.map escapeChar)

mutual

/-- Model of `JSON.stringify`: no whitespace, object fields in insertion
order, `undefined`-valued properties never reach this point (they are dropped
before an object is built). -/
def Json.stringify : Json → String
  | .null => "null"
  | .bool true => "true"
  | .bool false => "false"
  | .num n => toString n
  | .str s => "\"" ++ escapeString s ++ "\""
  | .arr es => "[" ++ Json.stringifyElems es ++ "]"
  | .obj fs => "\x7b" ++ Json.stringifyFields fs ++ "\x7d"

/-- Stringify array elements, comma separated. -/
def Json.stringifyElems : List Json → String
  | [] => ""
  | [j] => Json.stringify j
  | j :: rest => Json.stringify j ++ "," ++ Json.stringifyElems rest

/-- Stringify object fields, comma separated. -/
def Json.stringifyFields : List (String × Json) → String
  | [] => ""
  | [(k, j)] => "\"" ++ escapeString k ++ "\":" ++ Json.stringify j
  | (k, j) :: rest =>
      "\"" ++ escapeString k ++ "\":" ++ Json.stringify j ++ "," ++ Json.stringifyFields rest

end

/-- Unescape the character following a backslash in a JSON string literal. -/
def unescapeChar (c : Char) : Char :=
  if c = 'n' then '\n' else if c = 't' then '\t' else c

/-- Scan a JSON string literal body (after the opening quote), returning the
decoded string and the remaining input. -/
def scanStringLit : List Char → Option (String × List Char)
  | [] => none
  | '"' :: rest => some ("", rest)
  | '\\' :: [] => none
  | '\\' :: e :: rest =>
      match scanStringLit rest with
      | none => none
      | some (s, r) => some (String.singleton (unescapeChar e) ++ s, r)
  | c :: rest =>
      match scanStringLit rest with
      | none => none
      | some (s, r) => some (String.singleton c ++ s, r)

/-- Scan a maximal run of decimal digits. -/
def scanDigits : List Char → String × List Char
  | [] => ("", [])
  | c :: rest =>
      if c.isDigit then
        let (s, r) := scanDigits rest
        (String.singleton c ++ s, r)
      else ("", c :: rest)

/-- Skip JSON whitespace. -/
def skipWs : List Char → List Char
  | [] => []
  | c :: rest => if c = ' ' ∨ c = '\n' ∨ c = '\t' ∨ c = '\r' then skipWs rest else c :: rest

mutual

/-- Fuel-based recursive-descent JSON value parser (model of `JSON.parse`).
Supports the grammar `JSON.stringify` emits (integers for numbers). -/
def parseValue : Nat → List Char → Option (Json × List Char)
  | 0, _ => none
  | Nat.succ fuel, cs =>
    match skipWs cs with
    | 'n' :: 'u' :: 'l' :: 'l' :: rest => some (Json.null, rest)
    | 't' :: 'r' :: 'u' :: 'e' :: rest => some (Json.bool true, rest)
    | 'f' :: 'a' :: 'l' :: 's' :: 'e' :: rest => some (Json.bool false, rest)
    | '"' :: rest =>
        match scanStringLit rest with
        | none => none
        | some (s, r) => some (Json.str s, r)
    | '[' :: rest =>
        match skipWs rest with
        | ']' :: r2 => some (Json.arr [], r2)
        | r2 =>
            match parseElems fuel r2 with
            | none => none
            | some (es, r3) => some (Json.arr es, r3)
    | '\x7b' :: rest =>
        match skipWs rest with
        | '\x7d' :: r2 => some (Json.obj [], r2)
        | r2 =>
            match parseFields fuel r2 with
            | none => none
            | some (fs, r3) => some (Json.obj fs, r3)
    | '-' :: rest =>
        match scanDigits rest with
        | ("", _) => none
        | (ds, r) =>
            match ds.toNat? with
            | none => none
            | some n => some (Json.num (-(n : Int)), r)
    | c :: rest =>
        if c.isDigit then
          match scanDigits (c :: rest) with
          | ("", _) => none
          | (ds, r) =>
              match ds.toNat? with
              | none => none
              | some n => some (Json.num (n : Int), r)
        else none
    | [] => none

/-- Parse one-or-more comma-separated array elements up to `]`. -/
def parseElems : Nat → List Char → Option (List Json × List Char)
  | 0, _ => none
  | Nat.succ fuel, cs =>
    match parseValue fuel cs with
    | none => none
    | some (j, rest) =>
      match skipWs rest with
      | ',' :: r2 =>
          match parseElems fuel r2 with
          | none => none
          | some (es, r3) => some (j :: es, r3)
      | ']' :: r2 => some ([j], r2)
      | _ => none

/-- Parse one-or-more comma-separated object fields up to the closing brace. -/
def parseFields : Nat → List Char → Option (List (String × Json) × List Char)
  | 0, _ => none
  | Nat.succ fuel, cs =>
    match skipWs cs with
    | '"' :: rest =>
      match scanStringLit rest with
      | none => none
      | some (k, r1) =>
        match skipWs r1 with
        | ':' :: r2 =>
          match parseValue fuel r2 with
          | none => none
          | some (j, r3) =>
            match skipWs r3 with
            | ',' :: r4 =>
                match parseFields fuel r4 with
                | none => none
                | some (fs, r5) => some ((k, j) :: fs, r5)
            | '\x7d' :: r4 => some ([(k, j)], r4)
            | _ => none
        | _ => none
    | _ => none

end

/-- Model of `JSON.parse`: returns `none` where the source would throw a
`SyntaxError`. -/
def Json.parse (s : String) : Option Json :=
  match parseValue (2 * s.length + 2) s.toList with
  | none => none
  | some (j, rest) => if skipWs rest = [] then some j else none

/-- Look up a field of a JSON object (reading a property off a parsed JS
value; `none` models `undefined`, including property access on non-objects). -/
def Json.getField : Json → String → Option Json
  | .obj fields, name => fields.lookup name
  | _, _ => none

/-- Strict-equality comparison of a JS value against a string literal, as in
`content.type === "groupedBatch"`: true exactly when the value is that
string. -/
def jsIsString (s : String) : Option Json → Bool
  | some (Json.str t) => t == s
  | _ => false

/-- JS `value?.length === 0` check used by `isEmptyBatchPendingMessage` on
the parsed `contents` property. -/
def jsLengthIsZero : Option Json → Bool
  | some (Json.arr es) => es.isEmpty
  | some (Json.str s) => s.isEmpty
  | _ => false

/-!
Data model of the pending-state subsystem, translated from
`PendingStateManager` and its interfaces.  Op payloads
(`LocalContainerRuntimeMessage` / `InboundContainerRuntimeMessage`) are
JS objects, modelled as `Json` values; their `type` and `contents`
properties are read with `Json.getField`.
-/

/-- Value of the opaque `localOpMetadata` field (`unknown` in the source).
`undef` is JS `undefined`; `emptyBatchMarker` is the `\x7b emptyBatch: true \x7d`
object recognized by `asEmptyBatchLocalOpMetadata`; `value n` stands for any
other caller-supplied opaque value. -/
inductive LocalOpMeta where
  | undef : LocalOpMeta
  | emptyBatchMarker : LocalOpMeta
  | value (n : Nat) : LocalOpMeta
deriving DecidableEq, Repr

/-- Model of `asEmptyBatchLocalOpMetadata(x)?.emptyBatch === true`. -/
def isEmptyBatchLocalOpMetadata : LocalOpMeta → Bool
  | .emptyBatchMarker => true
  | _ => false

/-- The two keys of `opMetadata` that the subsystem reads through
`asBatchMetadata`: the batch boundary flag and the stamped batch id. -/
structure OpMetadata where
  batch : Option Bool
  batchId : Option String
deriving DecidableEq, Repr

/-- Model of `asBatchMetadata(opMetadata)?.batch` (also written
`opMetadata?.batch` in the source). -/
def asBatchMetadataFlag (om : Option OpMetadata) : Option Bool :=
  om.bind OpMetadata.batch

/-- Model of `asBatchMetadata(opMetadata)?.batchId`. -/
def asBatchMetadataBatchId (om : Option OpMetadata) : Option String :=
  om.bind OpMetadata.batchId

/-- The `batchInfo` field of `IPendingMessage`. -/
structure BatchInfo where
  clientId : String
  batchStartCsn : Int
  length : Int
  ignoreBatchId : Option Bool
  staged : Bool
deriving DecidableEq, Repr

/-- `IPendingMessage` (the constant discriminant `type: "message"` is left
implicit).  `runtimeOp` is `none` for stash records before parsing; a present
`runtimeOp` is a JS object modelled as `Json`. -/
structure PendingMessage where
  referenceSequenceNumber : Int
  content : String
  runtimeOp : Option Json
  localOpMetadata : LocalOpMeta
  opMetadata : Option OpMetadata
  sequenceNumber : Option Int
  batchInfo : BatchInfo

/-- `IPendingMessageFromStash`: same record, but `batchInfo` may be absent
(legacy `IPendingMessageV0` persisted shape). -/
structure StashMessage where
  referenceSequenceNumber : Int
  content : String
  runtimeOp : Option Json
  localOpMetadata : LocalOpMeta
  opMetadata : Option OpMetadata
  sequenceNumber : Option Int
  batchInfo : Option BatchInfo

/-- Model of `hasTypicalRuntimeOp`: `runtimeOp !== undefined &&
runtimeOp.type !== "groupedBatch"`. -/
def hasTypicalRuntimeOp (message : PendingMessage) : Bool :=
  match message.runtimeOp with
  | none => false
  | some op => !(jsIsString "groupedBatch" (op.getField "type"))

/-- Model of `toSerializableForm`: shallow copy with the non-serializable
properties (`localOpMetadata`, `runtimeOp`) removed. -/
def toSerializableForm (message : PendingMessage) : PendingMessage :=
  { message with localOpMetadata := LocalOpMeta.undef, runtimeOp := none }

/-- Model of `patchbatchInfo` (back-compat): a record lacking `batchInfo` is
back-filled with a fresh random `clientId` and sentinel `-1` values; the
fresh uuid is supplied by the caller. -/
def patchbatchInfo (freshUuid : String) (message : StashMessage) : PendingMessage :=
  { referenceSequenceNumber := message.referenceSequenceNumber
    content := message.content
    runtimeOp := message.runtimeOp
    localOpMetadata := message.localOpMetadata
    opMetadata := message.opMetadata
    sequenceNumber := message.sequenceNumber
    batchInfo :=
      match message.batchInfo with
      | some bi => bi
      | none =>
          { clientId := freshUuid, batchStartCsn := -1, length := -1,
            ignoreBatchId := none, staged := false } }

/-- Model of `isEmptyBatchPendingMessage`: parse the stored content and check
`type === "groupedBatch" && contents?.length === 0`.  Returns `none` when
`JSON.parse` would throw. -/
def isEmptyBatchPendingMessage (message : StashMessage) : Option Bool :=
  (Json.parse message.content).map fun content =>
    jsIsString "groupedBatch" (content.getField "type") &&
      jsLengthIsZero (content.getField "contents")

/-- Modelled from the spec: `serializeOp` (opLifecycle, not part of the
sampled source) is "a stable function mapping a structured operation to
canonical string content preserving field order `\x7b type, contents \x7d`
exactly, used both for wire transmission and ack comparison"; properties
that are undefined are not emitted by stringify. -/
def typeContentsObj (t c : Option Json) : Json :=
  Json.obj
    ((match t with | some v => [("type", v)] | none => []) ++
     (match c with | some v => [("contents", v)] | none => []))

/-- Modelled from the spec: canonical serialization of a structured op (see
`typeContentsObj`). -/
def serializeOp (op : Json) : String :=
  Json.stringify (typeContentsObj (op.getField "type") (op.getField "contents"))

/-- An inbound sequenced runtime message (`InboundSequencedContainerRuntimeMessage`):
the server-assigned sequence number plus the `type` / `contents` op fields. -/
structure InboundMessage where
  sequenceNumber : Int
  type : Option Json
  contents : Option Json

/-- Model of `buildPendingMessageContent`: re-serialize the incoming message
as `\x7b type, contents \x7d` in that fixed field order. -/
def buildPendingMessageContent (message : InboundMessage) : String :=
  Json.stringify (typeContentsObj message.type message.contents)

/-- Modelled from the spec: `BatchStartInfo` (opLifecycle, not part of the
sampled source) — the stamped batch id (if any), the originating clientId and
client sequence number of the batch start, and the key message. -/
structure BatchStartInfo where
  batchId : Option String
  clientId : String
  batchStartCsn : Int
  keyMessage : InboundMessage

/-- Modelled from the spec: `generateBatchId` — a deterministic batch id
derived from `(clientId, batchStartClientSequenceNumber)`. -/
def generateBatchId (clientId : String) (batchStartCsn : Int) : String :=
  clientId ++ "_[" ++ toString batchStartCsn ++ "]"

/-- Modelled from the spec: `getEffectiveBatchId` on a pending message — the
stamped batch id from `opMetadata` if present, else the id derived from the
message's `batchInfo`. -/
def getEffectiveBatchIdPendingMessage (message : PendingMessage) : String :=
  (asBatchMetadataBatchId message.opMetadata).getD
    (generateBatchId message.batchInfo.clientId message.batchInfo.batchStartCsn)

/-- Modelled from the spec: `getEffectiveBatchId` on a `BatchStartInfo`. -/
def getEffectiveBatchIdBatchStart (batchStart : BatchStartInfo) : String :=
  batchStart.batchId.getD (generateBatchId batchStart.clientId batchStart.batchStartCsn)

/-- Modelled from the spec: `InboundMessageResult` (opLifecycle, not part of
the sampled source) — either a whole batch with its `BatchStartInfo` (and
`length` = number of messages), or a single next message of a batch being
processed message-by-message, carrying `batchStart` only when it begins a
batch. -/
inductive InboundMessageResult where
  | fullBatch (messages : List InboundMessage) (batchStart : BatchStartInfo)
  | nextBatchMessage (nextMessage : InboundMessage) (batchStart : Option BatchStartInfo)

/-- The `"batchStart" in inbound` test plus the field read. -/
def inboundBatchStart : InboundMessageResult → Option BatchStartInfo
  | .fullBatch _ batchStart => some batchStart
  | .nextBatchMessage _ batchStart => batchStart

/-- The `inbound.length` read: defined only for a full batch. -/
def inboundLength : InboundMessageResult → Option Nat
  | .fullBatch messages _ => some messages.length
  | .nextBatchMessage _ _ => none

/-- The messages of an inbound result
(`inbound.type === "fullBatch" ? inbound.messages : [inbound.nextMessage]`). -/
def inboundMessages : InboundMessageResult → List InboundMessage
  | .fullBatch messages _ => messages
  | .nextBatchMessage nextMessage _ => [nextMessage]

/-- Every throw site of the subsystem.  Constructors are named for the assert
code or error message in the source. -/
inductive PsmError where
  | noPendingMessage : PsmError
  | contentMismatch : PsmError
  | forkedContainer : PsmError
  | expectedEmptyBatchMarker : PsmError
  | noPendingForInboundBatch : PsmError
  | nextPendingIsStaged : PsmError
  | stagedBatchSubmitted : PsmError
  | clientIdUndefined : PsmError
  | connectionInconsistent : PsmError
  | replayCalledTwice : PsmError
  | initialStatesNotEmpty : PsmError
  | stagedFollowedByNonStaged : PsmError
  | cannotProcessChunks : PsmError
  | runtimeOpUndefined : PsmError
  | lastPendingIsBatchBegin : PsmError
  | noBatchEnd : PsmError
  | batchStartNeedsEnd : PsmError
  | remainingStagedMessages : PsmError
  | snapshotTooRecent : PsmError
  | stashApplyFailed (message : String) : PsmError
  | localOpMetadataNotUndefined : PsmError
  | shiftOnEmptyQueue : PsmError
deriving DecidableEq, Repr

/-- Error taxonomy of the spec: which throw mechanism the source uses. -/
inductive ErrorKind where
  | dataProcessing : ErrorKind
  | invariantFailure : ErrorKind
  | generic : ErrorKind
deriving DecidableEq, Repr

/-- Classify each throw site: `DataProcessingError.create` /
`wrapIfUnrecognized` sites (including plain `Error`s thrown inside the
stash-apply `try`, which the `catch` wraps) are data-processing errors;
`assert` sites are invariant failures; the snapshot-too-recent `Error` is a
plain error. -/
def PsmError.kind : PsmError → ErrorKind
  | .contentMismatch => .dataProcessing
  | .forkedContainer => .dataProcessing
  | .stashApplyFailed _ => .dataProcessing
  | .localOpMetadataNotUndefined => .dataProcessing
  | .snapshotTooRecent => .generic
  | _ => .invariantFailure

/-- The mutable state of one `PendingStateManager` instance:
`pendingMessages` and `initialMessages` deques (front of the queue at the
head of the list), the `savedOps` list, and the replay guard
`clientIdFromLastReplay`. -/
structure PSMState where
  pendingMessages : List PendingMessage
  initialMessages : List StashMessage
  savedOps : List PendingMessage
  clientIdFromLastReplay : Option String

/-- Data for one op handed to the resubmission sink (`PendingMessageResubmitData`). -/
structure ResubmitData where
  runtimeOp : Json
  localOpMetadata : LocalOpMeta
  opMetadata : Option OpMetadata

/-- Metadata for one resubmitted batch (`PendingBatchResubmitMetadata`). -/
structure ResubmitMeta where
  batchId : Option String
  staged : Bool
  squash : Bool

/-- One recorded invocation of `stateHandler.reSubmitBatch`. -/
structure SinkCall where
  batch : List ResubmitData
  meta : ResubmitMeta

/-- The external `IRuntimeStateHandler`, with its callbacks as oracles:
`applyStashedOp` may fail (the wrapped exception case) and
`reSubmitEffect` gives the messages the re-entrant submit path appends to
the pending queue in response to a `reSubmitBatch` call. -/
structure RuntimeStateHandler where
  connected : Bool
  clientId : Option String
  isActiveConnection : Bool
  isAttached : Bool
  applyStashedOp : String → Except String LocalOpMeta
  reSubmitEffect : List ResubmitData → ResubmitMeta → List PendingMessage

/-- Replay options (`ReplayPendingStateOptions`). -/
structure ReplayPendingStateOptions where
  committingStagedBatches : Bool
  squash : Bool

/-- The defaults used when `replayPendingStates` is called without options. -/
def defaultReplayPendingStatesOptions : ReplayPendingStateOptions :=
  { committingStagedBatches := false, squash := false }

/-!
Operations of `PendingStateManager`, translated method by method.  Methods
that mutate state and may throw return `PSMState × Except PsmError α` — the
first component is the state at the moment the method returns or throws
(TypeScript mutations performed before a throw are not rolled back).
Methods whose post-throw state no claim inspects return
`Except PsmError (PSMState × α)` instead.
-/

/-- One message of a flushed batch (`LocalBatchMessage`, opLifecycle;
modelled from the spec fields the subsystem reads: the structured op, its
reference sequence number, the caller metadata pair). -/
structure LocalBatchMessage where
  runtimeOp : Json
  referenceSequenceNumber : Int
  localOpMetadata : LocalOpMeta
  metadata : Option OpMetadata

/-- Model of `PendingStateManager.onFlushBatch`.  `freshUuid` stands for the
`uuid()` drawn when the batch was never sent. -/
def onFlushBatch (s : PSMState) (h : RuntimeStateHandler) (freshUuid : String)
    (batch : List LocalBatchMessage) (clientSequenceNumber : Option Int)
    (staged : Bool) (ignoreBatchId : Option Bool) : Except PsmError PSMState :=
  let batchWasSent := clientSequenceNumber.isSome
  if batchWasSent ∧ staged then .error .stagedBatchSubmitted
  else
    let idPair : Option String × Int :=
      match clientSequenceNumber with
      | some csn => (h.clientId, csn)
      | none => (some freshUuid, -1)
    match idPair with
    | (none, _) => .error .clientIdUndefined
    | (some clientId, batchStartCsn) =>
        .ok { s with
          pendingMessages := s.pendingMessages ++ batch.map fun message =>
            { referenceSequenceNumber := message.referenceSequenceNumber
              content := serializeOp message.runtimeOp
              runtimeOp := some message.runtimeOp
              localOpMetadata := message.localOpMetadata
              opMetadata := message.metadata
              sequenceNumber := none
              batchInfo :=
                { clientId := clientId, batchStartCsn := batchStartCsn,
                  length := Int.ofNat batch.length,
                  ignoreBatchId := ignoreBatchId, staged := staged } } }

/-- The `EmptyGroupedBatch` op value
`\x7b type: "groupedBatch", contents: [] \x7d`. -/
def emptyGroupedBatchOp : Json :=
  Json.obj [("type", Json.str "groupedBatch"), ("contents", Json.arr [])]

/-- Modelled from the spec: `LocalEmptyBatchPlaceholder` (opLifecycle) — its
`runtimeOp` is the `EmptyGroupedBatch` and its `localOpMetadata` is the
`\x7b emptyBatch: true \x7d` marker by construction, so only the remaining
fields vary. -/
structure LocalEmptyBatchPlaceholder where
  referenceSequenceNumber : Int
  metadata : Option OpMetadata

/-- View a placeholder as the single batch message `onFlushBatch` receives. -/
def placeholderAsBatchMessage (p : LocalEmptyBatchPlaceholder) : LocalBatchMessage :=
  { runtimeOp := emptyGroupedBatchOp
    referenceSequenceNumber := p.referenceSequenceNumber
    localOpMetadata := LocalOpMeta.emptyBatchMarker
    metadata := p.metadata }

/-- Model of `PendingStateManager.onFlushEmptyBatch`. -/
def onFlushEmptyBatch (s : PSMState) (h : RuntimeStateHandler) (freshUuid : String)
    (placeholder : LocalEmptyBatchPlaceholder) (clientSequenceNumber : Option Int)
    (staged : Bool) : Except PsmError PSMState :=
  onFlushBatch s h freshUuid [placeholderAsBatchMessage placeholder]
    clientSequenceNumber staged none

/-- Model of `PendingStateManager.processNextPendingMessage`: stamp the front
pending message with the server sequence number, append its serializable form
to `savedOps`, dequeue it, then (unless processing an empty batch, where
`message` is `undefined`) compare stored content against the re-serialized
incoming message.  The returned state reflects every mutation performed
before a throw. -/
def processNextPendingMessage (s : PSMState) (sequenceNumber : Int)
    (message : Option InboundMessage) : PSMState × Except PsmError LocalOpMeta :=
  match s.pendingMessages with
  | [] => (s, .error .noPendingMessage)
  | pendingMessage :: rest =>
      let stamped := { pendingMessage with sequenceNumber := some sequenceNumber }
      let s1 := { s with
        savedOps := s.savedOps ++ [toSerializableForm stamped],
        pendingMessages := rest }
      match message with
      | none => (s1, .ok pendingMessage.localOpMetadata)
      | some m =>
          if pendingMessage.content ≠ buildPendingMessageContent m then
            (s1, .error .contentMismatch)
          else (s1, .ok pendingMessage.localOpMetadata)

/-- Model of `PendingStateManager.onLocalBatchBegin`: verify a pending
message exists and is not staged.  The batch-info mismatch check that
follows in the source only emits telemetry (logged, never thrown) and has no
effect on state, so it does not appear in the model. -/
def onLocalBatchBegin (s : PSMState) (_batchStart : BatchStartInfo)
    (_batchLength : Option Nat) : Except PsmError Unit :=
  match s.pendingMessages with
  | [] => .error .noPendingForInboundBatch
  | pendingMessage :: _ =>
      if pendingMessage.batchInfo.staged then .error .nextPendingIsStaged
      else .ok ()

/-- The `messages.map(... processNextPendingMessage ...)` loop of
`processPendingLocalMessages`: sequential, left to right, aborting on the
first throw with prior mutations kept. -/
def processPendingLocalMessagesLoop (s : PSMState) :
    List InboundMessage → PSMState × Except PsmError (List (InboundMessage × LocalOpMeta))
  | [] => (s, .ok [])
  | m :: ms =>
      match processNextPendingMessage s m.sequenceNumber (some m) with
      | (s1, .error e) => (s1, .error e)
      | (s1, .ok meta) =>
          match processPendingLocalMessagesLoop s1 ms with
          | (s2, .error e) => (s2, .error e)
          | (s2, .ok zipped) => (s2, .ok ((m, meta) :: zipped))

/-- Model of `PendingStateManager.processPendingLocalMessages`. -/
def processPendingLocalMessages (s : PSMState) (inbound : InboundMessageResult) :
    PSMState × Except PsmError (List (InboundMessage × LocalOpMeta)) :=
  let beginCheck : Except PsmError Unit :=
    match inboundBatchStart inbound with
    | some batchStart => onLocalBatchBegin s batchStart (inboundLength inbound)
    | none => .ok ()
  match beginCheck with
  | .error e => (s, .error e)
  | .ok _ =>
      match inbound with
      | .fullBatch [] batchStart =>
          match processNextPendingMessage s batchStart.keyMessage.sequenceNumber none with
          | (s1, .error e) => (s1, .error e)
          | (s1, .ok meta) =>
              if isEmptyBatchLocalOpMetadata meta then (s1, .ok [])
              else (s1, .error .expectedEmptyBatchMarker)
      | _ => processPendingLocalMessagesLoop s (inboundMessages inbound)

/-- Model of `PendingStateManager.remoteBatchMatchesPendingBatch`: find the
first pending message whose `batchInfo.ignoreBatchId` is not `true` and
compare effective batch ids. -/
def remoteBatchMatchesPendingBatch (s : PSMState) (remoteBatchStart : BatchStartInfo) : Bool :=
  match s.pendingMessages.find? (fun m => !(m.batchInfo.ignoreBatchId == some true)) with
  | none => false
  | some pendingMessageUsingBatchId =>
      getEffectiveBatchIdPendingMessage pendingMessageUsingBatchId ==
        getEffectiveBatchIdBatchStart remoteBatchStart

/-- Model of `PendingStateManager.processInboundMessages`: local messages are
correlated against the pending queue; remote messages are checked for the
forked-container condition and returned without `localOpMetadata`. -/
def processInboundMessages (s : PSMState) (inbound : InboundMessageResult)
    (isLocal : Bool) : PSMState × Except PsmError (List (InboundMessage × Option LocalOpMeta)) :=
  if isLocal then
    match processPendingLocalMessages s inbound with
    | (s1, .error e) => (s1, .error e)
    | (s1, .ok zipped) => (s1, .ok (zipped.map fun p => (p.1, some p.2)))
  else
    match inboundBatchStart inbound with
    | some batchStart =>
        if remoteBatchMatchesPendingBatch s batchStart then
          (s, .error .forkedContainer)
        else
          (s, .ok ((inboundMessages inbound).map fun m => (m, none)))
    | none => (s, .ok ((inboundMessages inbound).map fun m => (m, none)))

/-- Body of one `applyStashedOpsAt` loop iteration after the sequence-number
gate: shift the next stash record and run the `try` block (`catch` wraps any
inner throw as a data-processing error).  `freshUuid` feeds `patchbatchInfo`. -/
def applyStashedOne (h : RuntimeStateHandler) (freshUuid : String) (s : PSMState)
    (nextMessage : StashMessage) (rest : List StashMessage) :
    PSMState × Except PsmError Unit :=
  let s0 := { s with initialMessages := rest }
  match isEmptyBatchPendingMessage nextMessage with
  | none => (s0, .error (.stashApplyFailed "applyStashedOp"))
  | some true =>
      let patched :=
        patchbatchInfo freshUuid
          { nextMessage with localOpMetadata := LocalOpMeta.emptyBatchMarker }
      ({ s0 with pendingMessages := s0.pendingMessages ++ [patched] }, .ok ())
  | some false =>
      match h.applyStashedOp nextMessage.content with
      | .error _ => (s0, .error (.stashApplyFailed "applyStashedOp"))
      | .ok localOpMetadata =>
          if h.isAttached then
            match Json.parse nextMessage.content with
            | none => (s0, .error (.stashApplyFailed "applyStashedOp"))
            | some runtimeOp =>
                let patched :=
                  patchbatchInfo freshUuid
                    { nextMessage with
                      localOpMetadata := localOpMetadata,
                      runtimeOp := some runtimeOp }
                ({ s0 with pendingMessages := s0.pendingMessages ++ [patched] }, .ok ())
          else
            if localOpMetadata ≠ LocalOpMeta.undef then
              (s0, .error .localOpMetadataNotUndefined)
            else (s0, .ok ())

/-- The `while (!this.initialMessages.isEmpty())` loop of
`applyStashedOpsAt`.  `fuel` bounds the iterations; `applyStashedOpsAt`
supplies the queue length, which suffices because every iteration shifts one
record.  `freshIds idx` supplies the `uuid()` for the `idx`-th iteration. -/
def applyStashedOpsLoop (h : RuntimeStateHandler) (freshIds : Nat → String)
    (seqNum : Option Int) : Nat → Nat → PSMState → PSMState × Except PsmError Unit
  | 0, _, s => (s, .ok ())
  | Nat.succ fuel, idx, s =>
      match s.initialMessages with
      | [] => (s, .ok ())
      | peekMessage :: rest =>
          let gate : Except PsmError Bool :=
            match seqNum with
            | none => .ok true
            | some target =>
                if peekMessage.referenceSequenceNumber > target then .ok false
                else if peekMessage.referenceSequenceNumber < target then
                  .error .snapshotTooRecent
                else .ok true
          match gate with
          | .error e => (s, .error e)
          | .ok false => (s, .ok ())
          | .ok true =>
              match applyStashedOne h (freshIds idx) s peekMessage rest with
              | (s1, .error e) => (s1, .error e)
              | (s1, .ok _) => applyStashedOpsLoop h freshIds seqNum fuel (idx + 1) s1

/-- Model of `PendingStateManager.applyStashedOpsAt`. -/
def applyStashedOpsAt (h : RuntimeStateHandler) (freshIds : Nat → String)
    (seqNum : Option Int) (s : PSMState) : PSMState × Except PsmError Unit :=
  applyStashedOpsLoop h freshIds seqNum s.initialMessages.length 0 s

/-- The inner batch-accumulation loop of `replayPendingStates` (the
`while (remainingPendingMessagesCount >= 0)` loop): starting from the
already-shifted batch-begin message, keep shifting until the batch-end flag;
returns the accumulated resubmit data, the remaining queue, and how many
additional messages were shifted. -/
def collectBatch (pendingMessage : PendingMessage) (queue : List PendingMessage)
    (remaining : Nat) (acc : List ResubmitData) :
    Except PsmError (List ResubmitData × List PendingMessage × Nat) :=
  match pendingMessage.runtimeOp, hasTypicalRuntimeOp pendingMessage with
  | some op, true =>
      let acc1 := acc ++
        [{ runtimeOp := op,
           localOpMetadata := pendingMessage.localOpMetadata,
           opMetadata := pendingMessage.opMetadata }]
      if asBatchMetadataFlag pendingMessage.opMetadata = some false then
        .ok (acc1, queue, 0)
      else
        match remaining with
        | 0 => .error .noBatchEnd
        | Nat.succ r =>
            match queue with
            | [] => .error .shiftOnEmptyQueue
            | next :: rest =>
                if asBatchMetadataFlag next.opMetadata = some true then
                  .error .batchStartNeedsEnd
                else
                  (collectBatch next rest r acc1).map fun out =>
                    (out.1, out.2.1, out.2.2 + 1)
  | _, _ => .error .runtimeOpUndefined

/-- The main `while (remainingPendingMessagesCount > 0)` loop of
`replayPendingStates`.  `remaining` is the count captured before the loop
(decremented per shift); `fuel` equals `remaining` at entry and strictly
decreases per iteration, making the recursion structural.  After each
`reSubmitBatch` call the messages the re-entrant submit path appends
(`h.reSubmitEffect`) are pushed onto the back of the queue, and the call is
recorded in `trace`. -/
def replayLoop (h : RuntimeStateHandler) (committing squash : Bool) :
    Nat → List PendingMessage → Nat → Bool → List SinkCall →
    Except PsmError (List PendingMessage × List SinkCall)
  | _, queue, 0, _, trace => .ok (queue, trace)
  | 0, _, Nat.succ _, _, _ => .error .shiftOnEmptyQueue
  | Nat.succ fuel, queue, Nat.succ r, seenStagedBatch, trace =>
      match queue with
      | [] => .error .shiftOnEmptyQueue
      | pm0 :: rest =>
          if committing ∧ ¬pm0.batchInfo.staged then
            if seenStagedBatch then .error .stagedFollowedByNonStaged
            else replayLoop h committing squash fuel (rest ++ [pm0]) r seenStagedBatch trace
          else
            let seen1 := if committing then true else seenStagedBatch
            let pm :=
              if committing then
                { pm0 with batchInfo := { pm0.batchInfo with staged := false } }
              else pm0
            let batchMetadataFlag := asBatchMetadataFlag pm.opMetadata
            if batchMetadataFlag = some false then .error .cannotProcessChunks
            else
              let batchId :=
                if pm.batchInfo.ignoreBatchId = some true then none
                else some (getEffectiveBatchIdPendingMessage pm)
              let staged := pm.batchInfo.staged
              let meta : ResubmitMeta := { batchId := batchId, staged := staged, squash := squash }
              if isEmptyBatchLocalOpMetadata pm.localOpMetadata then
                replayLoop h committing squash fuel
                  (rest ++ h.reSubmitEffect [] meta) r seen1
                  (trace ++ [{ batch := [], meta := meta }])
              else
                match pm.runtimeOp, hasTypicalRuntimeOp pm with
                | some op, true =>
                    if batchMetadataFlag = none then
                      let d : ResubmitData :=
                        { runtimeOp := op,
                          localOpMetadata := pm.localOpMetadata,
                          opMetadata := pm.opMetadata }
                      replayLoop h committing squash fuel
                        (rest ++ h.reSubmitEffect [d] meta) r seen1
                        (trace ++ [{ batch := [d], meta := meta }])
                    else
                      match r with
                      | 0 => .error .lastPendingIsBatchBegin
                      | Nat.succ _ =>
                          match collectBatch pm rest r [] with
                          | .error e => .error e
                          | .ok (batch, queue1, consumed) =>
                              replayLoop h committing squash fuel
                                (queue1 ++ h.reSubmitEffect batch meta) (r - consumed) seen1
                                (trace ++ [{ batch := batch, meta := meta }])
                | _, _ => .error .runtimeOpUndefined

/-- Model of `PendingStateManager.replayPendingStates`: connection and
double-replay guards, record the replaying clientId, drain exactly the
number of messages pending at entry, clear `savedOps` on success.  The
closing telemetry event is log-only and does not appear in the model. -/
def replayPendingStates (h : RuntimeStateHandler) (options : ReplayPendingStateOptions)
    (s : PSMState) : Except PsmError (PSMState × List SinkCall) :=
  if ¬(h.connected ∨ options.committingStagedBatches) then .error .connectionInconsistent
  else if ¬options.committingStagedBatches ∧ s.clientIdFromLastReplay = h.clientId then
    .error .replayCalledTwice
  else
    let s1 := { s with clientIdFromLastReplay := h.clientId }
    if ¬s1.initialMessages.isEmpty then .error .initialStatesNotEmpty
    else
      match replayLoop h options.committingStagedBatches options.squash
          s1.pendingMessages.length s1.pendingMessages s1.pendingMessages.length
          false [] with
      | .error e => .error e
      | .ok (finalQueue, trace) =>
          .ok ({ s1 with pendingMessages := finalQueue, savedOps := [] }, trace)

/-- The `while` loop of `popStagedBatches`, expressed on the reversed queue
(head of the input list = back of the deque): pop while staged, recording
the callback invocations (messages with a typical runtime op) in order;
returns the callback trace and the reversed remaining queue. -/
def popStagedLoop : List PendingMessage → List PendingMessage × List PendingMessage
  | [] => ([], [])
  | m :: back =>
      if m.batchInfo.staged then
        let (trace, rem) := popStagedLoop back
        ((if hasTypicalRuntimeOp m then [m] else []) ++ trace, rem)
      else ([], m :: back)

/-- Model of `PendingStateManager.popStagedBatches`: pop staged messages
from the back (LIFO), invoke the callback on each that has a typical runtime
op, then assert no staged message remains. -/
def popStagedBatches (s : PSMState) :
    Except PsmError (PSMState × List PendingMessage) :=
  let result := popStagedLoop s.pendingMessages.reverse
  let rem := result.2.reverse
  if rem.all (fun m => !m.batchInfo.staged) then
    .ok ({ s with pendingMessages := rem }, result.1)
  else .error .remainingStagedMessages

/-!
Concrete fixtures used by the witness theorems below.
-/

/-- A small structured op `\x7b type: "op", contents: \x7b x: 1 \x7d \x7d`. -/
def opA : Json := Json.obj [("type", Json.str "op"), ("contents", Json.obj [("x", Json.num 1)])]

/-- A small structured op `\x7b type: "op", contents: \x7b x: 2 \x7d \x7d`. -/
def opB : Json := Json.obj [("type", Json.str "op"), ("contents", Json.obj [("x", Json.num 2)])]

/-- Build a pending message around a given op, staged flag, batch-boundary
flag and a numeric tag for its opaque local metadata. -/
def mkPendingFix (staged : Bool) (flag : Option Bool) (op : Json) (tag : Nat) : PendingMessage :=
  { referenceSequenceNumber := 0
    content := serializeOp op
    runtimeOp := some op
    localOpMetadata := LocalOpMeta.value tag
    opMetadata := some { batch := flag, batchId := none }
    sequenceNumber := none
    batchInfo :=
      { clientId := "c", batchStartCsn := 1, length := 1, ignoreBatchId := none, staged := staged } }

/-- An inbound sequenced message carrying the given op fields. -/
def mkInboundFix (seq : Int) (op : Json) : InboundMessage :=
  { sequenceNumber := seq, type := op.getField "type", contents := op.getField "contents" }

/-- A connected, attached state handler whose resubmission sink appends
nothing. -/
def hFix : RuntimeStateHandler :=
  { connected := true, clientId := some "c", isActiveConnection := true, isAttached := true,
    applyStashedOp := fun _ => .ok (LocalOpMeta.value 9),
    reSubmitEffect := fun _ _ => [] }

/-- A handler whose resubmission sink re-enters the submit path, appending
one fresh pending message per `reSubmitBatch` call. -/
def hFixEff : RuntimeStateHandler :=
  { hFix with reSubmitEffect := fun _ _ => [mkPendingFix false none opB 100] }

/-- A manager state with the given queues and no replay recorded. -/
def mkStateFix (pending : List PendingMessage) (initial : List StashMessage) : PSMState :=
  { pendingMessages := pending, initialMessages := initial, savedOps := [],
    clientIdFromLastReplay := none }

/-- A stash record with the given reference sequence number. -/
def mkStashFix (rsn : Int) : StashMessage :=
  { referenceSequenceNumber := rsn, content := serializeOp opA, runtimeOp := none,
    localOpMetadata := LocalOpMeta.undef, opMetadata := none, sequenceNumber := none,
    batchInfo := none }


/-- A remote batch start whose stamped batch id collides with the fixture
pending message's effective batch id `"c_[1]"`, under a different clientId. -/
def bsCollideFix : BatchStartInfo :=
  { batchId := some "c_[1]", clientId := "other", batchStartCsn := 99,
    keyMessage := mkInboundFix 1 opA }

/-- A remote batch start whose batch id does not collide. -/
def bsOtherFix : BatchStartInfo :=
  { batchId := some "zzz", clientId := "other", batchStartCsn := 99,
    keyMessage := mkInboundFix 1 opA }

/-- A local batch message around a given op with a numeric metadata tag. -/
def mkLocalMsgFix (tag : Nat) (op : Json) : LocalBatchMessage :=
  { runtimeOp := op, referenceSequenceNumber := 0,
    localOpMetadata := LocalOpMeta.value tag, metadata := none }

/-- An empty-batch placeholder fixture. -/
def phFix : LocalEmptyBatchPlaceholder :=
  { referenceSequenceNumber := 3, metadata := none }

/-- The pending message `onFlushEmptyBatch` records for `phFix` when the
placeholder batch was sent with client sequence number 7. -/
def pmPhFix : PendingMessage :=
  { referenceSequenceNumber := 3
    content := serializeOp emptyGroupedBatchOp
    runtimeOp := some emptyGroupedBatchOp
    localOpMetadata := LocalOpMeta.emptyBatchMarker
    opMetadata := none
    sequenceNumber := none
    batchInfo :=
      { clientId := "c", batchStartCsn := 7, length := 1, ignoreBatchId := none,
        staged := false } }

/-- A batch start for the empty-batch ack, key message sequence number 42. -/
def bsKeyFix : BatchStartInfo :=
  { batchId := none, clientId := "c", batchStartCsn := 7,
    keyMessage := { sequenceNumber := 42, type := none, contents := none } }

/-!
Claim theorems and supporting lemmas.
-/

/-- On a content mismatch, `processNextPendingMessage` has already stamped,
saved and dequeued the front pending message when it throws. -/
theorem processNextPendingMessage_mismatch (s : PSMState) (pm : PendingMessage)
    (rest : List PendingMessage) (m : InboundMessage) (seq : Int)
    (hq : s.pendingMessages = pm :: rest)
    (hne : pm.content ≠ buildPendingMessageContent m) :
    processNextPendingMessage s seq (some m) =
      ({ s with
          pendingMessages := rest
          savedOps := s.savedOps ++
            [toSerializableForm { pm with sequenceNumber := some seq }] },
       .error .contentMismatch) := by
  cases s with
  | mk ps im so cl =>
    cases hq
    simp only [processNextPendingMessage]
    rw [if_pos hne]

/-- C2: for every locally-originated inbound message whose re-serialization
as `\x7b type, contents \x7d` (in that fixed field order) differs from the
stored serialized content of the front-of-queue pending message,
`processNextPendingMessage` throws a data-processing error — it does not
dequeue silently. -/
theorem C2_content_mismatch_detection (s : PSMState) (pm : PendingMessage)
    (rest : List PendingMessage) (m : InboundMessage) (seq : Int)
    (hq : s.pendingMessages = pm :: rest)
    (hne : buildPendingMessageContent m ≠ pm.content) :
    ∃ s1, processNextPendingMessage s seq (some m) = (s1, .error .contentMismatch) ∧
      PsmError.kind .contentMismatch = ErrorKind.dataProcessing :=
  ⟨_, processNextPendingMessage_mismatch s pm rest m seq hq (fun hEq => hne hEq.symm), rfl⟩

/-- Witness for C2 at the spec's example: pending content
`\x7b"type":"op","contents":\x7b"x":1\x7d\x7d` against an inbound ack
re-serialized as `\x7b"type":"op","contents":\x7b"x":2\x7d\x7d`. -/
theorem C2_witness :
    ∃ s1, processNextPendingMessage (mkStateFix [mkPendingFix false none opA 1] []) 10
        (some (mkInboundFix 10 opB)) = (s1, .error .contentMismatch) ∧
      PsmError.kind .contentMismatch = ErrorKind.dataProcessing :=
  C2_content_mismatch_detection (mkStateFix [mkPendingFix false none opA 1] [])
    (mkPendingFix false none opA 1) [] (mkInboundFix 10 opB) 10 rfl (by decide)

/-- C10: whenever `processNextPendingMessage` throws the content-mismatch
error, the front pending message has already been removed from the pending
queue, stamped with the inbound sequence number, and appended (in
serializable form) to `savedOps`; the dequeue is not rolled back. -/
theorem C10_nonatomic_mismatch_error (s : PSMState) (pm : PendingMessage)
    (rest : List PendingMessage) (m : InboundMessage) (seq : Int)
    (hq : s.pendingMessages = pm :: rest)
    (hne : pm.content ≠ buildPendingMessageContent m) :
    processNextPendingMessage s seq (some m) =
      ({ s with
          pendingMessages := rest
          savedOps := s.savedOps ++
            [toSerializableForm { pm with sequenceNumber := some seq }] },
       .error .contentMismatch) :=
  processNextPendingMessage_mismatch s pm rest m seq hq hne

/-- Witness for C10: same mismatch scenario, checking the post-throw state. -/
theorem C10_witness :
    processNextPendingMessage (mkStateFix [mkPendingFix false none opA 2] []) 11
        (some (mkInboundFix 11 opB)) =
      ({ (mkStateFix [mkPendingFix false none opA 2] []) with
          pendingMessages := []
          savedOps := [toSerializableForm
            { (mkPendingFix false none opA 2) with sequenceNumber := some 11 }] },
       .error .contentMismatch) :=
  C10_nonatomic_mismatch_error (mkStateFix [mkPendingFix false none opA 2] [])
    (mkPendingFix false none opA 2) [] (mkInboundFix 11 opB) 11 rfl (by decide)

/-- C7: popping staged batches on queue `[m1 (not staged), m2 (staged),
m3 (staged)]` invokes the callback on `m3` then `m2` (last-in first-out,
skipping messages without a typical runtime op by construction of the loop),
stops at the first non-staged message from the back leaving `[m1]`, and — in
general — no message remaining after `popStagedBatches` is staged. -/
theorem C7_staged_pop (s : PSMState) (m1 m2 m3 : PendingMessage)
    (hq : s.pendingMessages = [m1, m2, m3])
    (h1 : m1.batchInfo.staged = false)
    (h2 : m2.batchInfo.staged = true) (h3 : m3.batchInfo.staged = true)
    (ht2 : hasTypicalRuntimeOp m2 = true) (ht3 : hasTypicalRuntimeOp m3 = true) :
    popStagedBatches s = .ok ({ s with pendingMessages := [m1] }, [m3, m2]) ∧
    (∀ (s2 s3 : PSMState) (trace : List PendingMessage),
      popStagedBatches s2 = .ok (s3, trace) →
      ∀ m ∈ s3.pendingMessages, m.batchInfo.staged = false) := by
  constructor
  · unfold popStagedBatches
    rw [hq]
    simp [popStagedLoop, h1, h2, h3, ht2, ht3]
  · intro s2 s3 trace hok m hm
    simp only [popStagedBatches] at hok
    split at hok
    · cases hok
      have := List.all_eq_true.mp (by assumption) m hm
      simpa using this
    · cases hok

/-- Witness for C7 at the spec's scenario `[m1 (staged=false),
m2 (staged=true), m3 (staged=true)]`. -/
theorem C7_witness :
    popStagedBatches (mkStateFix [mkPendingFix false none opA 1,
        mkPendingFix true none opA 2, mkPendingFix true none opA 3] []) =
      .ok ({ (mkStateFix [mkPendingFix false none opA 1, mkPendingFix true none opA 2,
              mkPendingFix true none opA 3] []) with
            pendingMessages := [mkPendingFix false none opA 1] },
        [mkPendingFix true none opA 3, mkPendingFix true none opA 2]) ∧
    (∀ (s2 s3 : PSMState) (trace : List PendingMessage),
      popStagedBatches s2 = .ok (s3, trace) →
      ∀ m ∈ s3.pendingMessages, m.batchInfo.staged = false) :=
  C7_staged_pop (mkStateFix [mkPendingFix false none opA 1, mkPendingFix true none opA 2,
      mkPendingFix true none opA 3] [])
    (mkPendingFix false none opA 1) (mkPendingFix true none opA 2)
    (mkPendingFix true none opA 3) rfl rfl rfl rfl (by decide) (by decide)

/-- C8: with a target sequence number supplied, `applyStashedOpsAt` stops
without error as soon as the next stashed entry's reference sequence number
exceeds the target, and an entry whose reference sequence number is strictly
below the target raises a fatal error with that entry still at the front of
the stash queue (not dequeued, not applied). -/
theorem C8_stash_target_bound (h : RuntimeStateHandler) (freshIds : Nat → String)
    (target : Int) (s : PSMState) (front : StashMessage) (rest : List StashMessage)
    (hq : s.initialMessages = front :: rest) :
    (front.referenceSequenceNumber > target →
      applyStashedOpsAt h freshIds (some target) s = (s, .ok ())) ∧
    (front.referenceSequenceNumber < target →
      applyStashedOpsAt h freshIds (some target) s = (s, .error .snapshotTooRecent)) := by
  cases s with
  | mk ps im so cl =>
    cases hq
    constructor
    · intro hgt
      show applyStashedOpsLoop h freshIds (some target) (rest.length + 1) 0 _ = _
      simp only [applyStashedOpsLoop]
      rw [if_pos hgt]
    · intro hlt
      have hngt : ¬(front.referenceSequenceNumber > target) := by omega
      show applyStashedOpsLoop h freshIds (some target) (rest.length + 1) 0 _ = _
      simp only [applyStashedOpsLoop]
      rw [if_neg hngt, if_pos hlt]

/-- Witness for C8: a stash whose front entry has reference sequence number
5, probed with targets 3 (break, no error) and 9 (fatal, front retained). -/
theorem C8_witness :
    (applyStashedOpsAt hFix (fun _ => "u") (some 3) (mkStateFix [] [mkStashFix 5]) =
      (mkStateFix [] [mkStashFix 5], .ok ())) ∧
    (applyStashedOpsAt hFix (fun _ => "u") (some 9) (mkStateFix [] [mkStashFix 5]) =
      (mkStateFix [] [mkStashFix 5], .error .snapshotTooRecent)) :=
  ⟨(C8_stash_target_bound hFix (fun _ => "u") 3 (mkStateFix [] [mkStashFix 5])
      (mkStashFix 5) [] rfl).1 (by decide),
   (C8_stash_target_bound hFix (fun _ => "u") 9 (mkStateFix [] [mkStashFix 5])
      (mkStashFix 5) [] rfl).2 (by decide)⟩

/-- C3: for an inbound batch not originated locally, if its effective batch
id equals the effective batch id of the first pending message whose
`batchInfo.ignoreBatchId` is not `true`, `processInboundMessages` throws the
fatal forked-container data-processing error; otherwise the remote messages
are returned without `localOpMetadata` and no error is raised.  The third
conjunct ties the collision condition to exactly that first
batch-id-bearing pending message. -/
theorem C3_fork_detection (s : PSMState) (inbound : InboundMessageResult)
    (bs : BatchStartInfo) (hbs : inboundBatchStart inbound = some bs) :
    (remoteBatchMatchesPendingBatch s bs = true →
      processInboundMessages s inbound false = (s, .error .forkedContainer) ∧
      PsmError.kind .forkedContainer = ErrorKind.dataProcessing) ∧
    (remoteBatchMatchesPendingBatch s bs = false →
      processInboundMessages s inbound false =
        (s, .ok ((inboundMessages inbound).map fun m => (m, none)))) ∧
    (∀ pmU, s.pendingMessages.find?
        (fun m => !(m.batchInfo.ignoreBatchId == some true)) = some pmU →
      (remoteBatchMatchesPendingBatch s bs = true ↔
        getEffectiveBatchIdPendingMessage pmU = getEffectiveBatchIdBatchStart bs)) := by
  refine ⟨?_, ?_, ?_⟩
  · intro hmatch
    refine ⟨?_, rfl⟩
    simp [processInboundMessages, hbs, hmatch]
  · intro hmatch
    simp [processInboundMessages, hbs, hmatch]
  · intro pmU hfind
    simp only [remoteBatchMatchesPendingBatch, hfind]
    exact beq_iff_eq


/-- Witness for C3: a colliding remote batch start throws the
forked-container error; a non-colliding one returns the remote message with
no local metadata. -/
theorem C3_witness :
    (processInboundMessages (mkStateFix [mkPendingFix false none opA 1] [])
        (.fullBatch [mkInboundFix 1 opA] bsCollideFix) false =
      (mkStateFix [mkPendingFix false none opA 1] [], .error .forkedContainer)) ∧
    (processInboundMessages (mkStateFix [mkPendingFix false none opA 1] [])
        (.fullBatch [mkInboundFix 1 opA] bsOtherFix) false =
      (mkStateFix [mkPendingFix false none opA 1] [],
        .ok ((inboundMessages (.fullBatch [mkInboundFix 1 opA] bsOtherFix)).map
          fun m => (m, none)))) :=
  ⟨((C3_fork_detection (mkStateFix [mkPendingFix false none opA 1] [])
      (.fullBatch [mkInboundFix 1 opA] bsCollideFix) bsCollideFix rfl).1 (by decide)).1,
   (C3_fork_detection (mkStateFix [mkPendingFix false none opA 1] [])
      (.fullBatch [mkInboundFix 1 opA] bsOtherFix) bsOtherFix rfl).2.1 (by decide)⟩

/-- A successful `onFlushBatch` appends one pending message per input
message, all sharing the same batch info (for some clientId / batchStartCsn
pair chosen by the sent / not-sent branch). -/
theorem onFlushBatch_ok_shape {s : PSMState} {h : RuntimeStateHandler} {u : String}
    {batch : List LocalBatchMessage} {csn : Option Int} {staged : Bool}
    {ign : Option Bool} {s1 : PSMState}
    (hok : onFlushBatch s h u batch csn staged ign = .ok s1) :
    ∃ cid bcsn,
      s1 = { s with pendingMessages := s.pendingMessages ++ batch.map fun message =>
        { referenceSequenceNumber := message.referenceSequenceNumber
          content := serializeOp message.runtimeOp
          runtimeOp := some message.runtimeOp
          localOpMetadata := message.localOpMetadata
          opMetadata := message.metadata
          sequenceNumber := none
          batchInfo :=
            { clientId := cid
              batchStartCsn := bcsn
              length := Int.ofNat batch.length
              ignoreBatchId := ign
              staged := staged } } } := by
  simp only [onFlushBatch] at hok
  split at hok
  · cases hok
  · split at hok
    · cases hok
    · rename_i cid bcsn heq
      cases hok
      exact ⟨cid, bcsn, rfl⟩

/-- C9: flushing an empty-batch placeholder then processing its ack as a
zero-length batch notification (local) succeeds: the tracked placeholder's
local metadata is the `emptyBatch: true` marker, `processNextPendingMessage`
hands exactly that marker back (called with no message, so no content
comparison can occur), and `processInboundMessages` returns without error. -/
theorem C9_empty_batch_round_trip (s0 : PSMState) (h : RuntimeStateHandler)
    (u : String) (p : LocalEmptyBatchPlaceholder) (csn : Int)
    (bs : BatchStartInfo) (s1 : PSMState)
    (hpend : s0.pendingMessages = [])
    (hflush : onFlushEmptyBatch s0 h u p (some csn) false = .ok s1) :
    (∃ pm, s1.pendingMessages = [pm] ∧
      pm.localOpMetadata = LocalOpMeta.emptyBatchMarker) ∧
    (processNextPendingMessage s1 bs.keyMessage.sequenceNumber none).2 =
      .ok LocalOpMeta.emptyBatchMarker ∧
    (processInboundMessages s1 (.fullBatch [] bs) true).2 = .ok [] := by
  obtain ⟨cid, bcsn, hs1⟩ := onFlushBatch_ok_shape hflush
  subst hs1
  refine ⟨⟨_, by rw [hpend]; rfl, rfl⟩, ?_, ?_⟩
  · simp [processNextPendingMessage, hpend, placeholderAsBatchMessage]
  · simp [processInboundMessages, processPendingLocalMessages, inboundBatchStart,
      onLocalBatchBegin, processNextPendingMessage, hpend, placeholderAsBatchMessage,
      isEmptyBatchLocalOpMetadata]

/-- Witness for C9: flush the placeholder fixture (sent, client sequence
number 7), then process its zero-length ack. -/
theorem C9_witness :
    (∃ pm, (mkStateFix [pmPhFix] []).pendingMessages = [pm] ∧
      pm.localOpMetadata = LocalOpMeta.emptyBatchMarker) ∧
    (processNextPendingMessage (mkStateFix [pmPhFix] [])
        bsKeyFix.keyMessage.sequenceNumber none).2 =
      .ok LocalOpMeta.emptyBatchMarker ∧
    (processInboundMessages (mkStateFix [pmPhFix] []) (.fullBatch [] bsKeyFix) true).2 =
      .ok [] :=
  C9_empty_batch_round_trip (mkStateFix [] []) hFix "u" phFix 7 bsKeyFix
    (mkStateFix [pmPhFix] []) rfl rfl

/-- Processing acks front-to-back with matching content never throws and
yields the stored local metadata zipped in queue order. -/
theorem processLoop_of_matching (msgs : List InboundMessage) :
    ∀ (s : PSMState) (q : List PendingMessage), s.pendingMessages = q →
    List.Forall₂ (fun (pm : PendingMessage) (m : InboundMessage) =>
      buildPendingMessageContent m = pm.content) q msgs →
    (processPendingLocalMessagesLoop s msgs).2 =
      .ok (msgs.zip (q.map PendingMessage.localOpMetadata)) := by
  induction msgs with
  | nil =>
    intro s q hq hf
    cases hf
    rfl
  | cons m ms ih =>
    intro s q hq hf
    cases hf with
    | cons hrel htail =>
      rename_i pm qtail
      cases s with
      | mk ps im so cl =>
        cases hq
        have hone : processNextPendingMessage ⟨pm :: qtail, im, so, cl⟩
            m.sequenceNumber (some m) =
            (⟨qtail, im,
              so ++ [toSerializableForm { pm with sequenceNumber := some m.sequenceNumber }],
              cl⟩, .ok pm.localOpMetadata) := by
          simp only [processNextPendingMessage]
          rw [if_neg (fun hne => hne hrel.symm)]
        have hih := ih ⟨qtail, im,
          so ++ [toSerializableForm { pm with sequenceNumber := some m.sequenceNumber }],
          cl⟩ qtail rfl htail
        simp only [processPendingLocalMessagesLoop, hone]
        cases hloop : processPendingLocalMessagesLoop ⟨qtail, im,
            so ++ [toSerializableForm { pm with sequenceNumber := some m.sequenceNumber }],
            cl⟩ ms with
        | mk s2 r2 =>
          rw [hloop] at hih
          simp only at hih
          subst hih
          simp [List.zip]

/-- C1: for every batch appended to the pending queue via `onFlushBatch`,
processing acks for its messages in order with inbound content matching each
stored serialized content never throws and returns each message's
`localOpMetadata` in the original push order. -/
theorem C1_order_preservation (s0 : PSMState) (h : RuntimeStateHandler) (u : String)
    (batch : List LocalBatchMessage) (csn : Option Int) (staged : Bool)
    (ign : Option Bool) (s1 : PSMState) (msgs : List InboundMessage)
    (hpend : s0.pendingMessages = [])
    (hflush : onFlushBatch s0 h u batch csn staged ign = .ok s1)
    (hmatch : List.Forall₂ (fun (pm : PendingMessage) (m : InboundMessage) =>
      buildPendingMessageContent m = pm.content) s1.pendingMessages msgs) :
    (processPendingLocalMessagesLoop s1 msgs).2 =
      .ok (msgs.zip (batch.map LocalBatchMessage.localOpMetadata)) := by
  obtain ⟨cid, bcsn, hs1⟩ := onFlushBatch_ok_shape hflush
  rw [processLoop_of_matching msgs s1 s1.pendingMessages rfl hmatch]
  rw [hs1]
  simp only [hpend, List.nil_append, List.map_map]
  rfl

/-- Witness for C1: a two-op flushed batch (sent with client sequence number
5) whose acks arrive in order with matching content. -/
theorem C1_witness :
    (processPendingLocalMessagesLoop
        (mkStateFix [⟨0, serializeOp opA, some opA, LocalOpMeta.value 1, none, none,
            ⟨"c", 5, 2, none, false⟩⟩,
          ⟨0, serializeOp opB, some opB, LocalOpMeta.value 2, none, none,
            ⟨"c", 5, 2, none, false⟩⟩] [])
        [mkInboundFix 20 opA, mkInboundFix 21 opB]).2 =
      .ok ([mkInboundFix 20 opA, mkInboundFix 21 opB].zip
        ([mkLocalMsgFix 1 opA, mkLocalMsgFix 2 opB].map
          LocalBatchMessage.localOpMetadata)) :=
  C1_order_preservation (mkStateFix [] []) hFix "u"
    [mkLocalMsgFix 1 opA, mkLocalMsgFix 2 opB] (some 5) false none
    (mkStateFix [⟨0, serializeOp opA, some opA, LocalOpMeta.value 1, none, none,
        ⟨"c", 5, 2, none, false⟩⟩,
      ⟨0, serializeOp opB, some opB, LocalOpMeta.value 2, none, none,
        ⟨"c", 5, 2, none, false⟩⟩] [])
    [mkInboundFix 20 opA, mkInboundFix 21 opB] rfl rfl
    (List.Forall₂.cons rfl (List.Forall₂.cons rfl List.Forall₂.nil))

/-- A successful replay leaves `clientIdFromLastReplay` equal to the
handler's current clientId, and required an active connection unless it was
committing staged batches. -/
theorem replayPendingStates_ok_facts {h : RuntimeStateHandler}
    {options : ReplayPendingStateOptions} {s s1 : PSMState} {trace : List SinkCall}
    (hok : replayPendingStates h options s = .ok (s1, trace)) :
    s1.clientIdFromLastReplay = h.clientId ∧
    (h.connected = true ∨ options.committingStagedBatches = true) := by
  simp only [replayPendingStates] at hok
  split at hok
  · cases hok
  · rename_i hc1
    split at hok
    · cases hok
    · split at hok
      · cases hok
      · split at hok
        · cases hok
        · rename_i fq tr heq
          cases hok
          refine ⟨rfl, ?_⟩
          by_cases hcon : h.connected = true
          · exact Or.inl hcon
          · rcases not_not.mp hc1 with hl | hr
            · exact Or.inl hl
            · exact Or.inr hr

/-- C6: calling `replayPendingStates` twice in succession with the state
handler's clientId unchanged (and not committing staged batches) raises the
replay-called-twice invariant failure on the second call. -/
theorem C6_idempotent_replay_guard (h : RuntimeStateHandler)
    (options : ReplayPendingStateOptions) (s s1 : PSMState) (trace : List SinkCall)
    (hnc : options.committingStagedBatches = false)
    (hok : replayPendingStates h options s = .ok (s1, trace)) :
    replayPendingStates h options s1 = .error .replayCalledTwice ∧
      PsmError.kind .replayCalledTwice = ErrorKind.invariantFailure := by
  obtain ⟨hcid, hconn⟩ := replayPendingStates_ok_facts hok
  have hconn2 : h.connected = true := by
    rcases hconn with hl | hr
    · exact hl
    · rw [hnc] at hr; cases hr
  refine ⟨?_, rfl⟩
  simp [replayPendingStates, hconn2, hnc, hcid]

/-- Witness for C6: one successful replay of a singleton queue, then a
second call with the same clientId. -/
theorem C6_witness :
    replayPendingStates hFix defaultReplayPendingStatesOptions
        { pendingMessages := [], initialMessages := [], savedOps := [],
          clientIdFromLastReplay := some "c" } =
      .error .replayCalledTwice ∧
      PsmError.kind .replayCalledTwice = ErrorKind.invariantFailure :=
  C6_idempotent_replay_guard hFix defaultReplayPendingStatesOptions
    (mkStateFix [mkPendingFix false none opA 1] [])
    { pendingMessages := [], initialMessages := [], savedOps := [],
      clientIdFromLastReplay := some "c" }
    [⟨[⟨opA, LocalOpMeta.value 1, some ⟨none, none⟩⟩], ⟨some "c_[1]", false, false⟩⟩]
    rfl rfl

/-- A message with a typical runtime op has a present runtime op. -/
theorem hasTypical_runtimeOp_isSome {m : PendingMessage}
    (ht : hasTypicalRuntimeOp m = true) : ∃ op, m.runtimeOp = some op := by
  unfold hasTypicalRuntimeOp at ht
  cases hro : m.runtimeOp with
  | none => rw [hro] at ht; cases ht
  | some op => exact ⟨op, rfl⟩

/-- If every message after a batch begin leaves the batch flag unset, the
inner accumulation loop exhausts the captured count and fails with the
no-batch-end invariant error. -/
theorem collectBatch_no_end (rest : List PendingMessage) :
    ∀ (pm : PendingMessage) (acc : List ResubmitData),
    hasTypicalRuntimeOp pm = true →
    asBatchMetadataFlag pm.opMetadata ≠ some false →
    (∀ m ∈ rest, asBatchMetadataFlag m.opMetadata = none ∧ hasTypicalRuntimeOp m = true) →
    collectBatch pm rest rest.length acc = .error .noBatchEnd := by
  induction rest with
  | nil =>
    intro pm acc ht hflag _
    obtain ⟨op, hop⟩ := hasTypical_runtimeOp_isSome ht
    simp [collectBatch, hop, ht, hflag]
  | cons x xs ih =>
    intro pm acc ht hflag hall
    obtain ⟨op, hop⟩ := hasTypical_runtimeOp_isSome ht
    have hx := hall x (List.mem_cons_self x xs)
    have hxs : ∀ m ∈ xs, asBatchMetadataFlag m.opMetadata = none ∧
        hasTypicalRuntimeOp m = true :=
      fun m hm => hall m (List.mem_cons_of_mem x hm)
    have hnext := ih x (acc ++ [⟨op, pm.localOpMetadata, pm.opMetadata⟩])
      hx.2 (by rw [hx.1]; simp) hxs
    simp [collectBatch, hop, ht, hflag, hx.1, hnext, Except.map]

/-- C5: replaying a flushed batch of three ops whose batch flag is `true` on
the first, unset on the middle and `false` on the last passes exactly one
three-element batch to the resubmission sink, in the original order; and a
batch-start with no matching batch-end before the captured count is
exhausted is a fatal invariant failure. -/
theorem C5_batch_grouping_round_trip (h : RuntimeStateHandler) (squash : Bool) :
    (∀ (s : PSMState) (m1 m2 m3 : PendingMessage) (op1 op2 op3 : Json),
      h.connected = true →
      s.clientIdFromLastReplay ≠ h.clientId →
      s.initialMessages = [] →
      s.pendingMessages = [m1, m2, m3] →
      asBatchMetadataFlag m1.opMetadata = some true →
      asBatchMetadataFlag m2.opMetadata = none →
      asBatchMetadataFlag m3.opMetadata = some false →
      m1.runtimeOp = some op1 → m2.runtimeOp = some op2 → m3.runtimeOp = some op3 →
      hasTypicalRuntimeOp m1 = true → hasTypicalRuntimeOp m2 = true →
      hasTypicalRuntimeOp m3 = true →
      isEmptyBatchLocalOpMetadata m1.localOpMetadata = false →
      ∃ s1, replayPendingStates h { committingStagedBatches := false, squash := squash } s =
        .ok (s1, [⟨[⟨op1, m1.localOpMetadata, m1.opMetadata⟩,
                    ⟨op2, m2.localOpMetadata, m2.opMetadata⟩,
                    ⟨op3, m3.localOpMetadata, m3.opMetadata⟩],
              ⟨if m1.batchInfo.ignoreBatchId = some true then none
                else some (getEffectiveBatchIdPendingMessage m1),
               m1.batchInfo.staged, squash⟩⟩])) ∧
    (∀ (s : PSMState) (mb : PendingMessage) (rest : List PendingMessage),
      h.connected = true →
      s.clientIdFromLastReplay ≠ h.clientId →
      s.initialMessages = [] →
      s.pendingMessages = mb :: rest →
      asBatchMetadataFlag mb.opMetadata = some true →
      hasTypicalRuntimeOp mb = true →
      isEmptyBatchLocalOpMetadata mb.localOpMetadata = false →
      (∀ m ∈ rest, asBatchMetadataFlag m.opMetadata = none ∧
        hasTypicalRuntimeOp m = true) →
      ∃ e, replayPendingStates h { committingStagedBatches := false, squash := squash } s =
        .error e ∧ PsmError.kind e = ErrorKind.invariantFailure) := by
  constructor
  · intro s m1 m2 m3 op1 op2 op3 hconn hguard hinit hq hf1 hf2 hf3 ho1 ho2 ho3
      ht1 ht2 ht3 hne1
    cases s with
    | mk ps im so cl =>
      cases hq
      cases hinit
      refine ⟨⟨h.reSubmitEffect
          [⟨op1, m1.localOpMetadata, m1.opMetadata⟩,
           ⟨op2, m2.localOpMetadata, m2.opMetadata⟩,
           ⟨op3, m3.localOpMetadata, m3.opMetadata⟩]
          ⟨if m1.batchInfo.ignoreBatchId = some true then none
            else some (getEffectiveBatchIdPendingMessage m1),
           m1.batchInfo.staged, squash⟩, [], [], h.clientId⟩, ?_⟩
      simp [replayPendingStates, hconn, hguard, replayLoop, collectBatch,
        hf1, hf2, hf3, ho1, ho2, ho3, ht1, ht2, ht3, hne1, Except.map]
  · intro s mb rest hconn hguard hinit hq hfb htb hneb hall
    cases s with
    | mk ps im so cl =>
      cases hq
      cases hinit
      obtain ⟨opb, hob⟩ := hasTypical_runtimeOp_isSome htb
      cases rest with
      | nil =>
        refine ⟨.lastPendingIsBatchBegin, ?_, rfl⟩
        simp [replayPendingStates, hconn, hguard, replayLoop, hfb, hob, htb, hneb]
      | cons x xs =>
        refine ⟨.noBatchEnd, ?_, rfl⟩
        have hcb := collectBatch_no_end (x :: xs) mb [] htb (by rw [hfb]; simp) hall
        simp only [List.length_cons] at hcb
        simp [replayPendingStates, hconn, hguard, replayLoop, hfb, hob, htb, hneb, hcb]

/-- Witness for C5: a concrete three-op batch (flags `true` / unset /
`false`) resubmits as one batch; a concrete batch-begin with no end fails
with an invariant error. -/
theorem C5_witness :
    (∃ s1, replayPendingStates hFix { committingStagedBatches := false, squash := false }
        (mkStateFix [mkPendingFix false (some true) opA 1, mkPendingFix false none opA 2,
          mkPendingFix false (some false) opA 3] []) =
      .ok (s1,
        [⟨[⟨opA, (mkPendingFix false (some true) opA 1).localOpMetadata,
              (mkPendingFix false (some true) opA 1).opMetadata⟩,
           ⟨opA, (mkPendingFix false none opA 2).localOpMetadata,
              (mkPendingFix false none opA 2).opMetadata⟩,
           ⟨opA, (mkPendingFix false (some false) opA 3).localOpMetadata,
              (mkPendingFix false (some false) opA 3).opMetadata⟩],
          ⟨if (mkPendingFix false (some true) opA 1).batchInfo.ignoreBatchId = some true
              then none
              else some (getEffectiveBatchIdPendingMessage
                (mkPendingFix false (some true) opA 1)),
            (mkPendingFix false (some true) opA 1).batchInfo.staged, false⟩⟩])) ∧
    (∃ e, replayPendingStates hFix { committingStagedBatches := false, squash := false }
        (mkStateFix [mkPendingFix false (some true) opA 1,
          mkPendingFix false none opA 2] []) =
      .error e ∧ PsmError.kind e = ErrorKind.invariantFailure) :=
  ⟨(C5_batch_grouping_round_trip hFix false).1
      (mkStateFix [mkPendingFix false (some true) opA 1, mkPendingFix false none opA 2,
        mkPendingFix false (some false) opA 3] [])
      (mkPendingFix false (some true) opA 1) (mkPendingFix false none opA 2)
      (mkPendingFix false (some false) opA 3) opA opA opA
      rfl (by decide) rfl rfl rfl rfl rfl rfl rfl rfl rfl rfl rfl rfl,
   (C5_batch_grouping_round_trip hFix false).2
      (mkStateFix [mkPendingFix false (some true) opA 1,
        mkPendingFix false none opA 2] [])
      (mkPendingFix false (some true) opA 1) [mkPendingFix false none opA 2]
      rfl (by decide) rfl rfl rfl rfl rfl
      (by intro m hm; rw [List.mem_singleton] at hm; subst hm; exact ⟨rfl, rfl⟩)⟩

/-- The inner batch-accumulation loop never looks past the captured count:
with `remaining` bounded by the length of the untouched part of the queue,
messages appended behind it are carried through unexamined. -/
theorem collectBatch_append (remaining : Nat) :
    ∀ (pm : PendingMessage) (q extra : List PendingMessage) (acc : List ResubmitData),
    remaining ≤ q.length →
    collectBatch pm (q ++ extra) remaining acc =
      (collectBatch pm q remaining acc).map fun out =>
        (out.1, out.2.1 ++ extra, out.2.2) := by
  induction remaining with
  | zero =>
    intro pm q extra acc hle
    cases hro : pm.runtimeOp with
    | none => simp [collectBatch, hro, Except.map]
    | some op =>
      cases htyp : hasTypicalRuntimeOp pm with
      | false => simp [collectBatch, hro, htyp, Except.map]
      | true =>
        by_cases hfl : asBatchMetadataFlag pm.opMetadata = some false
        · simp [collectBatch, hro, htyp, hfl, Except.map]
        · simp [collectBatch, hro, htyp, hfl, Except.map]
  | succ r ih =>
    intro pm q extra acc hle
    cases hro : pm.runtimeOp with
    | none => simp [collectBatch, hro, Except.map]
    | some op =>
      cases htyp : hasTypicalRuntimeOp pm with
      | false => simp [collectBatch, hro, htyp, Except.map]
      | true =>
        by_cases hfl : asBatchMetadataFlag pm.opMetadata = some false
        · simp [collectBatch, hro, htyp, hfl, Except.map]
        · cases q with
          | nil => exact absurd hle (by simp)
          | cons x xs =>
            by_cases hbx : asBatchMetadataFlag x.opMetadata = some true
            · simp [collectBatch, hro, htyp, hfl, hbx, Except.map]
            · have hih := ih x xs extra (acc ++ [⟨op, pm.localOpMetadata, pm.opMetadata⟩])
                (Nat.succ_le_succ_iff.mp (by simpa using hle))
              cases hcb : collectBatch x xs r
                  (acc ++ [⟨op, pm.localOpMetadata, pm.opMetadata⟩]) with
              | error e =>
                simp [collectBatch, hro, htyp, hfl, hbx, hih, hcb, Except.map]
              | ok out =>
                simp [collectBatch, hro, htyp, hfl, hbx, hih, hcb, Except.map]

/-- A successful inner batch accumulation consumed `k` messages off the
front of the queue, bounded by the captured count. -/
theorem collectBatch_ok_drop (remaining : Nat) :
    ∀ (pm : PendingMessage) (q : List PendingMessage) (acc batch : List ResubmitData)
      (q1 : List PendingMessage) (k : Nat),
    collectBatch pm q remaining acc = .ok (batch, q1, k) →
    k ≤ remaining ∧ k ≤ q.length ∧ q1 = q.drop k := by
  induction remaining with
  | zero =>
    intro pm q acc batch q1 k hok
    cases hro : pm.runtimeOp with
    | none => simp [collectBatch, hro] at hok
    | some op =>
      cases htyp : hasTypicalRuntimeOp pm with
      | false => simp [collectBatch, hro, htyp] at hok
      | true =>
        by_cases hfl : asBatchMetadataFlag pm.opMetadata = some false
        · simp [collectBatch, hro, htyp, hfl] at hok
          obtain ⟨hb, hq1, hk⟩ := hok
          refine ⟨by omega, by omega, ?_⟩
          rw [show k = 0 from by omega]
          simp [hq1]
        · simp [collectBatch, hro, htyp, hfl] at hok
  | succ r ih =>
    intro pm q acc batch q1 k hok
    cases hro : pm.runtimeOp with
    | none => simp [collectBatch, hro] at hok
    | some op =>
      cases htyp : hasTypicalRuntimeOp pm with
      | false => simp [collectBatch, hro, htyp] at hok
      | true =>
        by_cases hfl : asBatchMetadataFlag pm.opMetadata = some false
        · simp [collectBatch, hro, htyp, hfl] at hok
          obtain ⟨hb, hq1, hk⟩ := hok
          refine ⟨by omega, by omega, ?_⟩
          rw [show k = 0 from by omega]
          simp [hq1]
        · cases q with
          | nil => simp [collectBatch, hro, htyp, hfl] at hok
          | cons x xs =>
            by_cases hbx : asBatchMetadataFlag x.opMetadata = some true
            · simp [collectBatch, hro, htyp, hfl, hbx] at hok
            · cases hcb : collectBatch x xs r
                  (acc ++ [⟨op, pm.localOpMetadata, pm.opMetadata⟩]) with
              | error e =>
                simp [collectBatch, hro, htyp, hfl, hbx, hcb, Except.map] at hok
              | ok out =>
                simp [collectBatch, hro, htyp, hfl, hbx, hcb, Except.map] at hok
                obtain ⟨h1, h2, h3⟩ := hok
                obtain ⟨ha, hb2, hc⟩ :=
                  ih x xs (acc ++ [⟨op, pm.localOpMetadata, pm.opMetadata⟩])
                    out.1 out.2.1 out.2.2 (by rw [hcb])
                have hk2 : k = out.2.2 + 1 := by omega
                refine ⟨by omega, ?_, ?_⟩
                · simp only [List.length_cons]
                  omega
                · rw [hk2, List.drop_succ_cons, ← hc]
                  exact h2.symm

/-- Main invariant of the replay loop: run on a queue `q ++ extra` with a
captured count bounded by `q`'s length, the loop consumes messages from `q`
only.  The final queue is what is left of `q`, then `extra`, then (in
committing mode, before the first staged batch is seen) the requeued
non-staged prefix of the consumed part, then everything the re-entrant
submit path appended after each recorded sink call. -/
theorem replayLoop_shape (h : RuntimeStateHandler) (committing squash : Bool) :
    ∀ (fuel remaining : Nat) (q extra : List PendingMessage) (seen : Bool)
      (trace : List SinkCall) (fq : List PendingMessage) (tr : List SinkCall),
    remaining ≤ fuel → remaining ≤ q.length →
    replayLoop h committing squash fuel (q ++ extra) remaining seen trace = .ok (fq, tr) →
    ∃ nw, tr = trace ++ nw ∧
      fq = q.drop remaining ++ extra ++
        (if committing = true ∧ seen = false then
          (q.take remaining).takeWhile (fun m => !m.batchInfo.staged) else []) ++
        (nw.map fun c => h.reSubmitEffect c.batch c.meta).flatten := by
  intro fuel
  induction fuel with
  | zero =>
    intro remaining q extra seen trace fq tr hf hq hok
    cases remaining with
    | zero =>
      simp only [replayLoop, Except.ok.injEq, Prod.mk.injEq] at hok
      obtain ⟨h1, h2⟩ := hok
      exact ⟨[], by simp [h2], by simp [h1.symm]⟩
    | succ r => exact absurd hf (by omega)
  | succ f ih =>
    intro remaining q extra seen trace fq tr hf hq hok
    cases remaining with
    | zero =>
      simp only [replayLoop, Except.ok.injEq, Prod.mk.injEq] at hok
      obtain ⟨h1, h2⟩ := hok
      exact ⟨[], by simp [h2], by simp [h1.symm]⟩
    | succ r =>
      cases q with
      | nil => exact absurd hq (by simp)
      | cons pm0 qs =>
        have hr_f : r ≤ f := by omega
        have hr_qs : r ≤ qs.length := by simpa using hq
        rw [List.cons_append] at hok
        cases committing with
        | false =>
          by_cases hfl : asBatchMetadataFlag pm0.opMetadata = some false
          · simp [replayLoop, hfl] at hok
          · by_cases hmk : isEmptyBatchLocalOpMetadata pm0.localOpMetadata = true
            · simp [replayLoop, hfl, hmk] at hok
              obtain ⟨nw, htr, hfq⟩ := ih r qs _ seen _ fq tr hr_f hr_qs hok
              refine ⟨⟨[], ⟨if pm0.batchInfo.ignoreBatchId = some true then none
                  else some (getEffectiveBatchIdPendingMessage pm0),
                pm0.batchInfo.staged, squash⟩⟩ :: nw, ?_, ?_⟩
              · rw [htr]; simp
              · rw [hfq]; simp
            · cases hro : pm0.runtimeOp with
              | none => simp [replayLoop, hfl, hmk, hro] at hok
              | some op =>
                cases htyp : hasTypicalRuntimeOp pm0 with
                | false => simp [replayLoop, hfl, hmk, hro, htyp] at hok
                | true =>
                  by_cases hfn : asBatchMetadataFlag pm0.opMetadata = none
                  · simp [replayLoop, hfl, hmk, hro, htyp, hfn] at hok
                    obtain ⟨nw, htr, hfq⟩ := ih r qs _ seen _ fq tr hr_f hr_qs hok
                    refine ⟨⟨[⟨op, pm0.localOpMetadata, pm0.opMetadata⟩],
                        ⟨if pm0.batchInfo.ignoreBatchId = some true then none
                            else some (getEffectiveBatchIdPendingMessage pm0),
                          pm0.batchInfo.staged, squash⟩⟩ :: nw, ?_, ?_⟩
                    · rw [htr]; simp
                    · rw [hfq]; simp
                  · have hft : asBatchMetadataFlag pm0.opMetadata = some true := by
                      cases hv : asBatchMetadataFlag pm0.opMetadata with
                      | none => exact absurd hv hfn
                      | some b =>
                        cases b with
                        | false => exact absurd hv hfl
                        | true => rfl
                    cases r with
                    | zero => simp [replayLoop, hfl, hmk, hro, htyp, hft] at hok
                    | succ r0 =>
                      have hcba := collectBatch_append (r0 + 1) pm0 qs extra [] hr_qs
                      cases hcb : collectBatch pm0 qs (r0 + 1) [] with
                      | error e =>
                        simp [replayLoop, hfl, hmk, hro, htyp, hft, hcba, hcb,
                          Except.map] at hok
                      | ok out =>
                        obtain ⟨hk_le, hk_q, hq1⟩ :=
                          collectBatch_ok_drop (r0 + 1) pm0 qs [] out.1 out.2.1 out.2.2
                            (by rw [hcb])
                        simp [replayLoop, hfl, hmk, hro, htyp, hft, hcba, hcb,
                          Except.map] at hok
                        rw [hq1] at hok
                        obtain ⟨nw, htr, hfq⟩ := ih (r0 + 1 - out.2.2) (qs.drop out.2.2) _
                          seen _ fq tr (by omega) (by simp; omega) hok
                        refine ⟨⟨out.1,
                            ⟨if pm0.batchInfo.ignoreBatchId = some true then none
                                else some (getEffectiveBatchIdPendingMessage pm0),
                              pm0.batchInfo.staged, squash⟩⟩ :: nw, ?_, ?_⟩
                        · rw [htr]; simp
                        · rw [hfq]
                          simp [List.drop_drop, Nat.sub_add_cancel hk_le,
                            Nat.add_sub_cancel' hk_le]
        | true =>
          by_cases hstaged : pm0.batchInfo.staged = true
          · by_cases hfl : asBatchMetadataFlag pm0.opMetadata = some false
            · simp [replayLoop, hstaged, hfl] at hok
            · by_cases hmk : isEmptyBatchLocalOpMetadata pm0.localOpMetadata = true
              · simp [replayLoop, hstaged, hfl, hmk] at hok
                obtain ⟨nw, htr, hfq⟩ := ih r qs _ true _ fq tr hr_f hr_qs hok
                refine ⟨⟨[], ⟨if pm0.batchInfo.ignoreBatchId = some true then none
                    else some (getEffectiveBatchIdPendingMessage
                      { pm0 with batchInfo := { pm0.batchInfo with staged := false } }),
                  false, squash⟩⟩ :: nw, ?_, ?_⟩
                · rw [htr]; simp
                · rw [hfq]
                  cases seen <;> simp [hstaged]
              · cases hro : pm0.runtimeOp with
                | none => simp [replayLoop, hstaged, hfl, hmk, hro] at hok
                | some op =>
                  cases htyp : hasTypicalRuntimeOp pm0 with
                  | false =>
                    simp [hasTypicalRuntimeOp, hro] at htyp
                    simp [replayLoop, hasTypicalRuntimeOp, hstaged, hfl, hmk, hro,
                      htyp] at hok
                  | true =>
                    simp [hasTypicalRuntimeOp, hro] at htyp
                    by_cases hfn : asBatchMetadataFlag pm0.opMetadata = none
                    · simp [replayLoop, hasTypicalRuntimeOp, hstaged, hfl, hmk, hro,
                        htyp, hfn] at hok
                      obtain ⟨nw, htr, hfq⟩ := ih r qs _ true _ fq tr hr_f hr_qs hok
                      refine ⟨⟨[⟨op, pm0.localOpMetadata, pm0.opMetadata⟩],
                          ⟨if pm0.batchInfo.ignoreBatchId = some true then none
                              else some (getEffectiveBatchIdPendingMessage
                                { pm0 with batchInfo :=
                                    { pm0.batchInfo with staged := false } }),
                            false, squash⟩⟩ :: nw, ?_, ?_⟩
                      · rw [htr]; simp [hro]
                      · rw [hfq]
                        cases seen <;> simp [hstaged, hro]
                    · have hft : asBatchMetadataFlag pm0.opMetadata = some true := by
                        cases hv : asBatchMetadataFlag pm0.opMetadata with
                        | none => exact absurd hv hfn
                        | some b =>
                          cases b with
                          | false => exact absurd hv hfl
                          | true => rfl
                      cases r with
                      | zero =>
                        simp [replayLoop, hasTypicalRuntimeOp, hstaged, hfl, hmk, hro,
                          htyp, hft] at hok
                      | succ r0 =>
                        have hcba := collectBatch_append (r0 + 1)
                          { pm0 with batchInfo := { pm0.batchInfo with staged := false } }
                          qs extra [] hr_qs
                        cases hcb : collectBatch
                            { pm0 with batchInfo := { pm0.batchInfo with staged := false } }
                            qs (r0 + 1) [] with
                        | error e =>
                          simp only [hro] at hcba hcb
                          simp [replayLoop, hasTypicalRuntimeOp, hstaged, hfl, hmk, hro,
                            htyp, hft, hcba, hcb, Except.map] at hok
                        | ok out =>
                          obtain ⟨hk_le, hk_q, hq1⟩ :=
                            collectBatch_ok_drop (r0 + 1)
                              { pm0 with batchInfo := { pm0.batchInfo with staged := false } }
                              qs [] out.1 out.2.1 out.2.2 (by rw [hcb])
                          simp only [hro] at hcba hcb
                          simp [replayLoop, hasTypicalRuntimeOp, hstaged, hfl, hmk, hro,
                            htyp, hft, hcba, hcb, Except.map] at hok
                          rw [hq1] at hok
                          obtain ⟨nw, htr, hfq⟩ := ih (r0 + 1 - out.2.2) (qs.drop out.2.2) _
                            true _ fq tr (by omega) (by simp; omega) hok
                          refine ⟨⟨out.1,
                              ⟨if pm0.batchInfo.ignoreBatchId = some true then none
                                  else some (getEffectiveBatchIdPendingMessage
                                    { pm0 with batchInfo :=
                                        { pm0.batchInfo with staged := false } }),
                                false, squash⟩⟩ :: nw, ?_, ?_⟩
                          · rw [htr]; simp [hro]
                          · rw [hfq]
                            cases seen <;>
                              simp [hstaged, hro, List.drop_drop, Nat.sub_add_cancel hk_le,
                                Nat.add_sub_cancel' hk_le]
          · have hst2 : pm0.batchInfo.staged = false := by simpa using hstaged
            cases hseen : seen with
            | true =>
              simp [replayLoop, hst2, hseen] at hok
            | false =>
              simp [replayLoop, hst2, hseen] at hok
              obtain ⟨nw, htr, hfq⟩ := ih r qs _ false _ fq tr hr_f hr_qs hok
              refine ⟨nw, htr, ?_⟩
              rw [hfq]
              simp [hst2]

/-- C4: `replayPendingStates` processes exactly the messages present in the
pending queue when it was called (the count captured before the loop): on
success the final queue consists of the requeued non-staged prefix (only in
committing-staged mode) followed by precisely the messages appended by the
re-entrant `reSubmitBatch` calls, in call order — so re-entrant appends are
never replayed in the same pass. -/
theorem C4_fixed_count_replay (h : RuntimeStateHandler)
    (options : ReplayPendingStateOptions) (s s1 : PSMState) (trace : List SinkCall)
    (hok : replayPendingStates h options s = .ok (s1, trace)) :
    s1.pendingMessages =
      (if options.committingStagedBatches then
        s.pendingMessages.takeWhile (fun m => !m.batchInfo.staged) else []) ++
      (trace.map fun c => h.reSubmitEffect c.batch c.meta).flatten := by
  simp only [replayPendingStates] at hok
  split at hok
  · cases hok
  · split at hok
    · cases hok
    · split at hok
      · cases hok
      · split at hok
        · cases hok
        · rename_i fq tr heq
          cases hok
          obtain ⟨nw, htr, hfq⟩ := replayLoop_shape h options.committingStagedBatches
            options.squash s.pendingMessages.length s.pendingMessages.length
            s.pendingMessages [] false [] fq trace (Nat.le_refl _) (Nat.le_refl _)
            (by simpa using heq)
          simp only [List.nil_append] at htr
          subst htr
          rw [hfq]
          cases hcs : options.committingStagedBatches <;>
            simp [hcs, List.drop_length, List.take_length]

/-- Witness for C4: replaying two single-message batches with a re-entrant
sink that appends one fresh message per call leaves exactly the two appended
messages in the queue. -/
theorem C4_witness :
    ({ pendingMessages := [mkPendingFix false none opB 100, mkPendingFix false none opB 100],
       initialMessages := [], savedOps := [],
       clientIdFromLastReplay := some "c" } : PSMState).pendingMessages =
      (if defaultReplayPendingStatesOptions.committingStagedBatches then
        (mkStateFix [mkPendingFix false none opA 1,
          mkPendingFix false none opA 2] []).pendingMessages.takeWhile
            (fun m => !m.batchInfo.staged)
      else []) ++
      (([⟨[⟨opA, LocalOpMeta.value 1, some ⟨none, none⟩⟩], ⟨some "c_[1]", false, false⟩⟩,
         ⟨[⟨opA, LocalOpMeta.value 2, some ⟨none, none⟩⟩],
            ⟨some "c_[1]", false, false⟩⟩] : List SinkCall).map
        fun c => hFixEff.reSubmitEffect c.batch c.meta).flatten :=
  C4_fixed_count_replay hFixEff defaultReplayPendingStatesOptions
    (mkStateFix [mkPendingFix false none opA 1, mkPendingFix false none opA 2] [])
    { pendingMessages := [mkPendingFix false none opB 100, mkPendingFix false none opB 100],
      initialMessages := [], savedOps := [], clientIdFromLastReplay := some "c" }
    [⟨[⟨opA, LocalOpMeta.value 1, some ⟨none, none⟩⟩], ⟨some "c_[1]", false, false⟩⟩,
     ⟨[⟨opA, LocalOpMeta.value 2, some ⟨none, none⟩⟩], ⟨some "c_[1]", false, false⟩⟩]
    rfl
